import Mathlib

/-!
Verification of the `Tools` utility class of `src/tools.py` (agrilac_etl_infoagro).

The Python file is thin glue over xarray / pandas / geopandas / rasterio /
datetime.  The shallow embedding below translates each method together with
the exact semantics of the library operations the claims depend on:

* proleptic Gregorian calendar arithmetic (`datetime.date.toordinal`,
  `pd.date_range`);
* decimal rendering of integers (`str(n)`, `str(n).zfill(2)`, `f'{n:03}'`);
* `xarray.Dataset.where(cond, drop=True)` (dimension trimming to rows/columns
  that contain at least one kept cell);
* CPython `_strptime` for the format `'%Y%j'` (the `%Y` regex is exactly four
  digits, the `%j` regex is an ordered alternation of day-of-year shapes, and
  an explicitly given julian day is resolved through `date.fromordinal`,
  which rolls over into the following year instead of range-checking);
* the file-existence-driven loop of `merge_files`, including its early
  return on an unsupported file type and the `ValueError` that
  `xr.concat([])` raises when no file was found.

Datasets are abstracted to the fields the claims are about: grid values are
`Option ℚ` with `none` playing the role of NaN, file systems are predicates
on file names, and side effects (files written, messages printed, renames
performed) are returned explicitly.
-/

/-! ### Gregorian calendar (model of `datetime.date` / pandas timestamps) -/

/-- Gregorian leap-year rule, as implemented by `datetime` and pandas. -/
def isLeap (y : Nat) : Bool :=
  y % 4 == 0 && (y % 100 != 0 || y % 400 == 0)

/-- Number of days in year `y`. -/
def daysInYear (y : Nat) : Nat :=
  365 + (if isLeap y then 1 else 0)

/-- Length of month `m` (1-12) in a (non-)leap year; 0 outside that range. -/
def monthLength (leap : Bool) (m : Nat) : Nat :=
  if m = 1 then 31
  else if m = 2 then (if leap then 29 else 28)
  else if m = 3 then 31
  else if m = 4 then 30
  else if m = 5 then 31
  else if m = 6 then 30
  else if m = 7 then 31
  else if m = 8 then 31
  else if m = 9 then 30
  else if m = 10 then 31
  else if m = 11 then 30
  else if m = 12 then 31
  else 0

/-- Days in months `1..m` of a year with leap flag `leap`. -/
def daysBeforeMonth (leap : Bool) : Nat → Nat
  | 0 => 0
  | m + 1 => daysBeforeMonth leap m + monthLength leap (m + 1)

/-- A calendar date, the model of `datetime.date` and of the per-day pandas
timestamps produced by `pd.date_range`. -/
structure Date where
  year : Nat
  month : Nat
  day : Nat
deriving DecidableEq

/-- A date that `datetime.date` would accept (year at least 1, month 1-12,
day within the month). -/
def validDate (d : Date) : Prop :=
  1 ≤ d.year ∧ 1 ≤ d.month ∧ d.month ≤ 12 ∧ 1 ≤ d.day ∧
    d.day ≤ monthLength (isLeap d.year) d.month

instance (d : Date) : Decidable (validDate d) := by
  unfold validDate; infer_instance

/-- Days of the proleptic Gregorian calendar strictly before year `y`
(CPython `_days_before_year`). -/
def daysBeforeYear (y : Nat) : Nat :=
  365 * (y - 1) + (y - 1) / 4 - (y - 1) / 100 + (y - 1) / 400

/-- `datetime.date.toordinal`: day 1 is 0001-01-01. -/
def toOrdinal (d : Date) : Nat :=
  daysBeforeYear d.year + daysBeforeMonth (isLeap d.year) (d.month - 1) + d.day

/-- The next calendar day (the `timedelta(days=1)` step that generates
`pd.date_range`). -/
def nextDay (d : Date) : Date :=
  if d.day < monthLength (isLeap d.year) d.month then ⟨d.year, d.month, d.day + 1⟩
  else if d.month < 12 then ⟨d.year, d.month + 1, 1⟩
  else ⟨d.year + 1, 1, 1⟩

/-- The previous calendar day (`end_date - timedelta(days=1)`). -/
def prevDay (d : Date) : Date :=
  if 1 < d.day then ⟨d.year, d.month, d.day - 1⟩
  else if 1 < d.month then
    ⟨d.year, d.month - 1, monthLength (isLeap d.year) (d.month - 1)⟩
  else ⟨d.year - 1, 12, 31⟩

/-- Fuel-driven generator of consecutive dates from `cur` while `cur ≤ e`. -/
def dateRangeAux (e : Date) : Nat → Date → List Date
  | 0, _ => []
  | fuel + 1, cur =>
      if toOrdinal cur ≤ toOrdinal e then cur :: dateRangeAux e fuel (nextDay cur)
      else []

/-- Model of `pd.date_range(start=s, end=e)` (both endpoints inclusive,
daily frequency). -/
def date_range (s e : Date) : List Date :=
  dateRangeAux e (toOrdinal e + 1 - toOrdinal s) s

/-! ### Calendar lemmas -/

theorem monthLength_pos (leap : Bool) (m : Nat) (h1 : 1 ≤ m) (h12 : m ≤ 12) :
    1 ≤ monthLength leap m := by
  interval_cases m <;> cases leap <;> decide

theorem monthLength_le (leap : Bool) (m : Nat) : monthLength leap m ≤ 31 := by
  rcases Nat.lt_or_ge m 13 with h | h
  · interval_cases m <;> cases leap <;> decide
  · obtain ⟨n, rfl⟩ : ∃ n, m = n + 13 := ⟨m - 13, by omega⟩
    have h0 : monthLength leap (n + 13) = 0 := by
      unfold monthLength
      repeat rw [if_neg (by omega)]
    omega

set_option maxHeartbeats 1000000 in
theorem daysBeforeYear_succ (y : Nat) (hy : 1 ≤ y) :
    daysBeforeYear (y + 1) = daysBeforeYear y + daysInYear y := by
  obtain ⟨k, rfl⟩ : ∃ k, y = k + 1 := ⟨y - 1, by omega⟩
  have hL : isLeap (k + 1) = true ↔
      ((k + 1) % 4 = 0 ∧ ((k + 1) % 100 ≠ 0 ∨ (k + 1) % 400 = 0)) := by
    simp [isLeap]
  simp only [daysBeforeYear, daysInYear, Nat.add_sub_cancel]
  by_cases hLp : ((k + 1) % 4 = 0 ∧ ((k + 1) % 100 ≠ 0 ∨ (k + 1) % 400 = 0))
  · rw [if_pos (hL.mpr hLp)]; omega
  · rw [if_neg (fun hc => hLp (hL.mp hc))]; omega

theorem daysBeforeMonth_11 (leap : Bool) :
    daysBeforeMonth leap 11 = 334 + (if leap then 1 else 0) := by
  cases leap <;> rfl

theorem daysBeforeMonth_step (leap : Bool) (m : Nat) (hm : 1 ≤ m) :
    daysBeforeMonth leap m = daysBeforeMonth leap (m - 1) + monthLength leap m := by
  obtain ⟨n, rfl⟩ : ∃ n, m = n + 1 := ⟨m - 1, by omega⟩
  simp [daysBeforeMonth]

theorem validDate_mk (y m day : Nat) :
    validDate ⟨y, m, day⟩ ↔
      (1 ≤ y ∧ 1 ≤ m ∧ m ≤ 12 ∧ 1 ≤ day ∧ day ≤ monthLength (isLeap y) m) :=
  Iff.rfl

theorem toOrdinal_mk (y m day : Nat) :
    toOrdinal ⟨y, m, day⟩ =
      daysBeforeYear y + daysBeforeMonth (isLeap y) (m - 1) + day :=
  rfl

theorem validDate_nextDay (d : Date) (h : validDate d) : validDate (nextDay d) := by
  obtain ⟨hy, hm1, hm12, hd1, hdle⟩ := h
  unfold nextDay
  split_ifs with h1 h2
  · rw [validDate_mk]
    exact ⟨hy, hm1, hm12, by omega, by omega⟩
  · rw [validDate_mk]
    exact ⟨hy, by omega, by omega, le_refl 1,
      monthLength_pos _ _ (by omega) (by omega)⟩
  · rw [validDate_mk]
    exact ⟨by omega, by norm_num, by norm_num, by norm_num,
      monthLength_pos _ _ (by norm_num) (by norm_num)⟩

theorem toOrdinal_nextDay (d : Date) (h : validDate d) :
    toOrdinal (nextDay d) = toOrdinal d + 1 := by
  obtain ⟨hy, hm1, hm12, hd1, hdle⟩ := h
  unfold nextDay
  split_ifs with h1 h2
  · rw [toOrdinal_mk]; unfold toOrdinal; omega
  · have hstep := daysBeforeMonth_step (isLeap d.year) d.month hm1
    rw [toOrdinal_mk]; unfold toOrdinal
    rw [Nat.add_sub_cancel]
    omega
  · have hm : d.month = 12 := by omega
    rw [hm] at hdle h1
    have h12 : monthLength (isLeap d.year) 12 = 31 := rfl
    have hd31 : d.day = 31 := by omega
    have hsucc := daysBeforeYear_succ d.year hy
    have hfull := daysBeforeMonth_11 (isLeap d.year)
    rw [toOrdinal_mk]; unfold toOrdinal
    rw [hm, hd31, show (12 : ℕ) - 1 = 11 by norm_num, show (1 : ℕ) - 1 = 0 by norm_num]
    have h0 : ∀ b, daysBeforeMonth b 0 = 0 := fun _ => rfl
    rw [h0]
    simp only [daysInYear] at hsucc
    cases hL : isLeap d.year <;> rw [hL] at hfull hsucc <;>
      simp at hfull hsucc <;> omega

theorem toOrdinal_pos (d : Date) (h : validDate d) : 1 ≤ toOrdinal d := by
  obtain ⟨_, _, _, hd1, _⟩ := h
  unfold toOrdinal; omega

theorem daysBeforeYear_one : daysBeforeYear 1 = 0 := rfl

theorem validDate_prevDay (d : Date) (h : validDate d) (h2 : 2 ≤ toOrdinal d) :
    validDate (prevDay d) := by
  obtain ⟨hy, hm1, hm12, hd1, hdle⟩ := h
  unfold prevDay
  split_ifs with hd hm
  · rw [validDate_mk]
    exact ⟨hy, hm1, hm12, by omega, by omega⟩
  · rw [validDate_mk]
    exact ⟨hy, by omega, by omega, monthLength_pos _ _ (by omega) (by omega), le_refl _⟩
  · have hmo : d.month = 1 := by omega
    have hdo : d.day = 1 := by omega
    have hy2 : 2 ≤ d.year := by
      by_contra hc
      have hy1 : d.year = 1 := by omega
      have : toOrdinal d = 1 := by
        unfold toOrdinal
        rw [hy1, hmo, hdo, daysBeforeYear_one]
        rfl
      omega
    rw [validDate_mk]
    have h31 : ∀ b, monthLength b 12 = 31 := fun _ => rfl
    exact ⟨by omega, by norm_num, by norm_num, by norm_num, by rw [h31]⟩

theorem toOrdinal_prevDay (d : Date) (h : validDate d) (h2 : 2 ≤ toOrdinal d) :
    toOrdinal (prevDay d) + 1 = toOrdinal d := by
  obtain ⟨hy, hm1, hm12, hd1, hdle⟩ := h
  unfold prevDay
  split_ifs with hd hm
  · rw [toOrdinal_mk]; unfold toOrdinal; omega
  · have hstep := daysBeforeMonth_step (isLeap d.year) (d.month - 1) (by omega)
    rw [toOrdinal_mk]; unfold toOrdinal
    have hdo : d.day = 1 := by omega
    rw [hdo]
    omega
  · have hmo : d.month = 1 := by omega
    have hdo : d.day = 1 := by omega
    have hy2 : 2 ≤ d.year := by
      by_contra hc
      have hy1 : d.year = 1 := by omega
      have : toOrdinal d = 1 := by
        unfold toOrdinal
        rw [hy1, hmo, hdo, daysBeforeYear_one]
        rfl
      omega
    have hsucc := daysBeforeYear_succ (d.year - 1) (by omega)
    have hfull := daysBeforeMonth_11 (isLeap (d.year - 1))
    have hyy : d.year - 1 + 1 = d.year := by omega
    rw [hyy] at hsucc
    rw [toOrdinal_mk]; unfold toOrdinal
    rw [hmo, hdo, show (12 : ℕ) - 1 = 11 by norm_num, show (1 : ℕ) - 1 = 0 by norm_num]
    have h0 : ∀ b, daysBeforeMonth b 0 = 0 := fun _ => rfl
    rw [h0]
    simp only [daysInYear] at hsucc
    cases hL : isLeap (d.year - 1) <;> rw [hL] at hfull hsucc <;>
      simp at hfull hsucc <;> omega

theorem dateRangeAux_spec (e : Date) :
    ∀ fuel (cur : Date), validDate cur → fuel = toOrdinal e + 1 - toOrdinal cur →
      (dateRangeAux e fuel cur).map toOrdinal = List.range' (toOrdinal cur) fuel ∧
        ∀ d ∈ dateRangeAux e fuel cur, validDate d := by
  intro fuel
  induction fuel with
  | zero => intro cur _ _; simp [dateRangeAux]
  | succ n ih =>
      intro cur hv hf
      unfold dateRangeAux
      have hle : toOrdinal cur ≤ toOrdinal e := by omega
      rw [if_pos hle]
      have hv' := validDate_nextDay cur hv
      have ho := toOrdinal_nextDay cur hv
      obtain ⟨h1, h2⟩ := ih (nextDay cur) hv' (by omega)
      refine ⟨?_, ?_⟩
      · rw [List.range'_succ, List.map_cons, h1, ho]
      · intro d hd
        rcases List.mem_cons.mp hd with hd | hd
        · exact hd ▸ hv
        · exact h2 d hd

theorem date_range_spec (s e : Date) (hs : validDate s) :
    (date_range s e).map toOrdinal =
        List.range' (toOrdinal s) (toOrdinal e + 1 - toOrdinal s) ∧
      ∀ d ∈ date_range s e, validDate d :=
  dateRangeAux_spec e _ s hs rfl

theorem date_range_sorted (s e : Date) (hs : validDate s) :
    List.Pairwise (fun a b => toOrdinal a < toOrdinal b) (date_range s e) := by
  have h := (date_range_spec s e hs).1
  have hp : List.Pairwise (· < ·) ((date_range s e).map toOrdinal) := by
    rw [h]; exact List.pairwise_lt_range' _ _
  exact (List.pairwise_map).mp hp

/-! ### Decimal strings (models of `str(n)`, `int(s)`, `zfill`, format padding) -/

/-- The decimal digit character for `n < 10`. -/
def digitChar (n : Nat) : Char :=
  if n = 0 then '0'
  else if n = 1 then '1'
  else if n = 2 then '2'
  else if n = 3 then '3'
  else if n = 4 then '4'
  else if n = 5 then '5'
  else if n = 6 then '6'
  else if n = 7 then '7'
  else if n = 8 then '8'
  else if n = 9 then '9'
  else '*'

/-- Numeric value of a digit character. -/
def digitVal (c : Char) : Nat := c.toNat - 48

/-- ASCII-digit test; the model of Python's per-character `str.isdigit`
(the repository only ever applies it to ASCII file names). -/
def isDigitChar (c : Char) : Bool := 48 ≤ c.toNat && c.toNat ≤ 57

/-- Fuel-driven digit expansion (structural recursion so that concrete
values reduce inside the kernel). -/
def natToDecGo : Nat → Nat → List Char
  | 0, _ => []
  | fuel + 1, n =>
      if n < 10 then [digitChar n]
      else natToDecGo fuel (n / 10) ++ [digitChar (n % 10)]

/-- The decimal rendering of `n`, most significant digit first: the model of
Python `str(n)` for a nonnegative int. -/
def natToDec (n : Nat) : List Char :=
  natToDecGo (n + 1) n

theorem natToDecGo_eq : ∀ fuel n, n < fuel → natToDecGo fuel n = natToDec n := by
  intro fuel
  induction fuel using Nat.strong_induction_on with
  | _ fuel ih =>
      intro n h
      match fuel, h with
      | fuel + 1, h =>
          show natToDecGo (fuel + 1) n = natToDecGo (n + 1) n
          by_cases h10 : n < 10
          · simp only [natToDecGo, if_pos h10]
          · simp only [natToDecGo, if_neg h10]
            have hdiv : n / 10 < n := Nat.div_lt_self (by omega) (by omega)
            rw [ih fuel (Nat.lt_succ_self fuel) (n / 10) (by omega)]
            rw [ih n (by omega) (n / 10) hdiv]

/-- Numeric value of a decimal digit string: the model of Python `int(s)`
for a string of digits. -/
def natOfDigits (cs : List Char) : Nat :=
  cs.foldl (fun a c => 10 * a + digitVal c) 0

/-- `f'{n:03}'`: `n` zero-padded on the left to at least three characters. -/
def pad3 (n : Nat) : List Char :=
  List.replicate (3 - (natToDec n).length) '0' ++ natToDec n

/-- `str(n).zfill(2)` (also the model of `%02d`-style rendering in
`strftime('%Y-%m-%d')`): `n` zero-padded on the left to at least two
characters. -/
def zfill2 (n : Nat) : String :=
  ⟨List.replicate (2 - (natToDec n).length) '0' ++ natToDec n⟩

theorem natToDec_lt10 (n : Nat) (h : n < 10) : natToDec n = [digitChar n] := by
  unfold natToDec
  simp only [natToDecGo, if_pos h]

theorem natToDec_ge10 (n : Nat) (h : 10 ≤ n) :
    natToDec n = natToDec (n / 10) ++ [digitChar (n % 10)] := by
  conv_lhs => unfold natToDec
  simp only [natToDecGo, if_neg (by omega : ¬ n < 10)]
  rw [natToDecGo_eq n (n / 10) (Nat.div_lt_self (by omega) (by omega))]

theorem digitVal_digitChar : ∀ n, n < 10 → digitVal (digitChar n) = n := by decide

theorem isDigitChar_digitChar : ∀ n, n < 10 → isDigitChar (digitChar n) = true := by
  decide

theorem natOfDigits_aux (cs : List Char) (a : Nat) :
    cs.foldl (fun a c => 10 * a + digitVal c) a =
      a * 10 ^ cs.length + natOfDigits cs := by
  induction cs generalizing a with
  | nil => simp [natOfDigits]
  | cons c cs ih =>
      simp only [List.foldl_cons, List.length_cons, natOfDigits]
      rw [ih, ih (10 * 0 + digitVal c)]
      ring

theorem natOfDigits_cons (c : Char) (cs : List Char) :
    natOfDigits (c :: cs) = digitVal c * 10 ^ cs.length + natOfDigits cs := by
  unfold natOfDigits
  simp only [List.foldl_cons]
  rw [natOfDigits_aux]
  simp [natOfDigits]

theorem natOfDigits_append (xs ys : List Char) :
    natOfDigits (xs ++ ys) = natOfDigits xs * 10 ^ ys.length + natOfDigits ys := by
  unfold natOfDigits
  rw [List.foldl_append, natOfDigits_aux]
  rfl

theorem digitVal_le (c : Char) (h : isDigitChar c = true) : digitVal c ≤ 9 := by
  unfold isDigitChar at h
  unfold digitVal
  simp only [Bool.and_eq_true, decide_eq_true_eq] at h
  omega

theorem natOfDigits_lt (cs : List Char) (h : ∀ c ∈ cs, isDigitChar c = true) :
    natOfDigits cs < 10 ^ cs.length := by
  induction cs with
  | nil => simp [natOfDigits]
  | cons c cs ih =>
      rw [natOfDigits_cons]
      have hc := digitVal_le c (h c (List.mem_cons_self c cs))
      have hcs := ih (fun x hx => h x (List.mem_cons_of_mem c hx))
      have : digitVal c * 10 ^ cs.length ≤ 9 * 10 ^ cs.length :=
        Nat.mul_le_mul_right _ hc
      simp only [List.length_cons]
      calc digitVal c * 10 ^ cs.length + natOfDigits cs
          < digitVal c * 10 ^ cs.length + 10 ^ cs.length := by omega
        _ ≤ 9 * 10 ^ cs.length + 10 ^ cs.length := by omega
        _ = 10 ^ (cs.length + 1) := by ring

theorem natOfDigits_natToDec (n : Nat) : natOfDigits (natToDec n) = n := by
  induction n using Nat.strong_induction_on with
  | _ n ih =>
      by_cases h : n < 10
      · rw [natToDec_lt10 n h]
        rw [natOfDigits_cons]
        simp [natOfDigits, digitVal_digitChar n h]
      · rw [natToDec_ge10 n (by omega)]
        rw [natOfDigits_append]
        have hdiv : n / 10 < n := Nat.div_lt_self (by omega) (by omega)
        rw [ih (n / 10) hdiv]
        have hm : n % 10 < 10 := Nat.mod_lt _ (by omega)
        simp [natOfDigits_cons, natOfDigits, digitVal_digitChar _ hm]
        omega

theorem natToDec_all_digits (n : Nat) :
    ∀ c ∈ natToDec n, isDigitChar c = true := by
  induction n using Nat.strong_induction_on with
  | _ n ih =>
      by_cases h : n < 10
      · rw [natToDec_lt10 n h]
        intro c hc
        simp at hc
        exact hc ▸ isDigitChar_digitChar n h
      · rw [natToDec_ge10 n (by omega)]
        intro c hc
        rcases List.mem_append.mp hc with hc | hc
        · exact ih (n / 10) (Nat.div_lt_self (by omega) (by omega)) c hc
        · simp at hc
          exact hc ▸ isDigitChar_digitChar _ (Nat.mod_lt _ (by omega))

theorem natToDec_ne_nil (n : Nat) : natToDec n ≠ [] := by
  by_cases h : n < 10
  · rw [natToDec_lt10 n h]; simp
  · rw [natToDec_ge10 n (by omega)]; simp

theorem natToDec_length (k : Nat) :
    ∀ n, 10 ^ k ≤ n → n < 10 ^ (k + 1) → (natToDec n).length = k + 1 := by
  induction k with
  | zero =>
      intro n h1 h2
      simp only [pow_zero, pow_one] at h1 h2
      rw [natToDec_lt10 n h2]
      rfl
  | succ k ih =>
      intro n h1 h2
      have hpow : (10 : ℕ) ≤ 10 ^ (k + 1) := by
        calc (10 : ℕ) = 10 ^ 1 := (pow_one 10).symm
          _ ≤ 10 ^ (k + 1) := Nat.pow_le_pow_right (by omega) (by omega)
      have h10 : 10 ≤ n := le_trans hpow h1
      rw [natToDec_ge10 n h10]
      rw [List.length_append]
      have hlow : 10 ^ k ≤ n / 10 := by
        rw [Nat.le_div_iff_mul_le (by omega)]
        calc 10 ^ k * 10 = 10 ^ (k + 1) := by ring
          _ ≤ n := h1
      have hhigh : n / 10 < 10 ^ (k + 1) := by
        rw [Nat.div_lt_iff_lt_mul (by omega)]
        calc n < 10 ^ (k + 2) := h2
          _ = 10 ^ (k + 1) * 10 := by ring
      rw [ih (n / 10) hlow hhigh]
      rfl

/-! ### `Tools.merge_files`

The loop opens one file per date; the content of each per-day file is
irrelevant to the claims (the time coordinate of the output is assigned from
the collected `times` list, not read from the files), so a file system is a
predicate on file names and the output is summarised by the messages printed
and the dates that end up on the time coordinate. -/

/-- The three ways a `merge_files` call can end: `raised` is the
`ValueError` that `xr.concat([])` raises when no per-day file was found,
`earlyReturn` is the bare `return` taken on an unsupported file type, and
`written times` means the merged dataset was written with `times` as its
time coordinate. -/
inductive MergeResult where
  | raised : MergeResult
  | earlyReturn : MergeResult
  | written : List Date → MergeResult
deriving DecidableEq

/-- Messages printed by a `merge_files` call together with how it ended. -/
structure MergeOut where
  messages : List String
  result : MergeResult
deriving DecidableEq

/-- The per-day file name probed by `merge_files`:
`f'{data_folder}{year}-{month}-{day}.{file_type}'` with
`str(date.month).zfill(2)` and `str(date.day).zfill(2)`. -/
def probeName (data_folder file_type : String) (d : Date) : String :=
  data_folder ++ ⟨natToDec d.year⟩ ++ "-" ++ zfill2 d.month ++ "-" ++ zfill2 d.day
    ++ "." ++ file_type

/-- The body of the `for date in date_range` loop of `merge_files`:
either an early return (`Except.error` carrying the messages printed so
far) or the dates whose files were opened together with the messages
printed. -/
def mergeLoop (ex : String → Bool) (data_folder file_type : String) :
    List Date → Except (List String) (List Date × List String)
  | [] => Except.ok ([], [])
  | d :: ds =>
      if ex (probeName data_folder file_type d) then
        if file_type = "nc" then
          match mergeLoop ex data_folder file_type ds with
          | Except.ok (ts, ws) => Except.ok (d :: ts, ws)
          | Except.error ws => Except.error ws
        else if file_type = "tif" then
          match mergeLoop ex data_folder file_type ds with
          | Except.ok (ts, ws) => Except.ok (d :: ts, ws)
          | Except.error ws => Except.error ws
        else Except.error ["Unsupported file type: " ++ file_type]
      else
        match mergeLoop ex data_folder file_type ds with
        | Except.ok (ts, ws) =>
            Except.ok (ts, ("File not found: " ++ probeName data_folder file_type d) :: ws)
        | Except.error ws =>
            Except.error (("File not found: " ++ probeName data_folder file_type d) :: ws)

/-- The list of dates `merge_files` iterates over:
`pd.date_range(start=start_date, end=end_date - timedelta(days=1))`. -/
def merge_dates (start_date end_date : Date) : List Date :=
  date_range start_date (prevDay end_date)

/-- Model of `Tools.merge_files`.  `ex` is the file system
(`os.path.exists`); the data read from each file is abstracted away, and
the units/variable-name parameters are kept only for shape since no claim
depends on them. -/
def merge_files (ex : String → Bool) (start_date end_date : Date)
    (data_folder _output_folder file_type _units _variable_name : String) : MergeOut :=
  match mergeLoop ex data_folder file_type (merge_dates start_date end_date) with
  | Except.error ws => ⟨ws, MergeResult.earlyReturn⟩
  | Except.ok (times, ws) =>
      if times.isEmpty then ⟨ws, MergeResult.raised⟩
      else ⟨ws, MergeResult.written times⟩

theorem mergeLoop_supported (ex : String → Bool) (data_folder file_type : String)
    (hft : file_type = "nc" ∨ file_type = "tif") (L : List Date) :
    mergeLoop ex data_folder file_type L =
      Except.ok
        (L.filter (fun d => ex (probeName data_folder file_type d)),
         (L.filter (fun d => !ex (probeName data_folder file_type d))).map
           (fun d => "File not found: " ++ probeName data_folder file_type d)) := by
  induction L with
  | nil => rfl
  | cons d ds ih =>
      unfold mergeLoop
      by_cases hex : ex (probeName data_folder file_type d) = true
      · rw [if_pos hex, ih]
        rcases hft with h | h
        · rw [if_pos h]
          simp [List.filter, hex]
        · by_cases hnc : file_type = "nc"
          · rw [if_pos hnc]
            simp [List.filter, hex]
          · rw [if_neg hnc, if_pos h]
            simp [List.filter, hex]
      · rw [if_neg hex, ih]
        simp at hex
        simp [List.filter, hex]

theorem mergeLoop_unsupported (ex : String → Bool) (data_folder file_type : String)
    (hnc : file_type ≠ "nc") (htif : file_type ≠ "tif") (L : List Date) :
    (((L.any (fun d => ex (probeName data_folder file_type d))) = true →
        ∃ ws, mergeLoop ex data_folder file_type L =
          Except.error (ws ++ ["Unsupported file type: " ++ file_type])) ∧
      ((L.any (fun d => ex (probeName data_folder file_type d))) = false →
        mergeLoop ex data_folder file_type L =
          Except.ok ([], (L.map
            (fun d => "File not found: " ++ probeName data_folder file_type d))))) := by
  induction L with
  | nil => exact ⟨by simp, fun _ => rfl⟩
  | cons d ds ih =>
      obtain ⟨ih1, ih2⟩ := ih
      constructor
      · intro hany
        unfold mergeLoop
        by_cases hex : ex (probeName data_folder file_type d) = true
        · rw [if_pos hex, if_neg hnc, if_neg htif]
          exact ⟨[], rfl⟩
        · rw [if_neg hex]
          have hany' : ds.any (fun d => ex (probeName data_folder file_type d)) = true := by
            simp [List.any_cons] at hany
            rcases hany with h | h
            · exact absurd h hex
            · simpa using h
          obtain ⟨ws, hws⟩ := ih1 hany'
          rw [hws]
          exact ⟨("File not found: " ++ probeName data_folder file_type d) :: ws, rfl⟩
      · intro hany
        unfold mergeLoop
        simp [List.any_cons] at hany
        obtain ⟨h1, h2⟩ := hany
        rw [if_neg (by simpa using h1)]
        rw [ih2 (by simpa using h2)]
        simp

theorem zfill2_length (n : Nat) (h : n < 100) : (zfill2 n).length = 2 := by
  have hlen : (natToDec n).length = 1 ∨ (natToDec n).length = 2 := by
    by_cases h10 : n < 10
    · left; rw [natToDec_lt10 n h10]; rfl
    · right; exact natToDec_length 1 n (by omega) (by norm_num; omega)
  show (List.replicate (2 - (natToDec n).length) '0' ++ natToDec n).length = 2
  rw [List.length_append, List.length_replicate]
  omega

/-- Claim C9 (confirmed): `merge_files` iterates exactly the dates
`start .. end - 1 day` (the end date itself is excluded), and for each such
date probes exactly the file name
`{prefix}{YYYY}-{MM}-{DD}.{file_type}` with month and day zero-padded to
two digits. -/
theorem merge_files_iteration (s e : Date) (folder ft : String)
    (hs : validDate s) (he : validDate e) (he2 : 2 ≤ toOrdinal e) :
    ((merge_dates s e).map toOrdinal =
        List.range' (toOrdinal s) (toOrdinal e - toOrdinal s)) ∧
      ∀ d ∈ merge_dates s e, validDate d ∧
        probeName folder ft d =
          folder ++ (⟨natToDec d.year⟩ : String) ++ "-" ++ zfill2 d.month ++ "-" ++
            zfill2 d.day ++ "." ++ ft ∧
        (zfill2 d.month).length = 2 ∧ (zfill2 d.day).length = 2 := by
  have hprev := toOrdinal_prevDay e he he2
  obtain ⟨hmap, hvalid⟩ := date_range_spec s (prevDay e) hs
  constructor
  · unfold merge_dates
    rw [hmap, show toOrdinal (prevDay e) + 1 - toOrdinal s = toOrdinal e - toOrdinal s
      from by omega]
  · intro d hd
    have hv := hvalid d hd
    obtain ⟨hy, hm1, hm12, hd1, hdle⟩ := hv
    have hml := monthLength_le (isLeap d.year) d.month
    refine ⟨hvalid d hd, rfl, ?_, ?_⟩
    · exact zfill2_length d.month (by omega)
    · exact zfill2_length d.day (by omega)

/-- Witness for C9 at a concrete two-day range (2024-04-08 to 2024-04-10
exclusive). -/
theorem merge_files_iteration_witness :
    (validDate ⟨2024, 4, 8⟩ ∧ validDate ⟨2024, 4, 10⟩ ∧ 2 ≤ toOrdinal ⟨2024, 4, 10⟩) ∧
      (merge_dates ⟨2024, 4, 8⟩ ⟨2024, 4, 10⟩).map toOrdinal =
        List.range' (toOrdinal ⟨2024, 4, 8⟩)
          (toOrdinal ⟨2024, 4, 10⟩ - toOrdinal ⟨2024, 4, 8⟩) ∧
      probeName "p" "nc" ⟨2024, 4, 9⟩ = "p2024-04-09.nc" := by
  refine ⟨⟨by decide, by decide, by decide⟩, ?_, ?_⟩
  · exact (merge_files_iteration ⟨2024, 4, 8⟩ ⟨2024, 4, 10⟩ "p" "nc"
      (by decide) (by decide) (by decide)).1
  · decide

theorem merge_files_out_filter (ex : String → Bool) (s e : Date)
    (folder out ft units var : String) (hft : ft = "nc" ∨ ft = "tif")
    (hpresent : ∃ d ∈ merge_dates s e, ex (probeName folder ft d) = true) :
    merge_files ex s e folder out ft units var =
      ⟨((merge_dates s e).filter (fun d => !ex (probeName folder ft d))).map
          (fun d => "File not found: " ++ probeName folder ft d),
        MergeResult.written
          ((merge_dates s e).filter (fun d => ex (probeName folder ft d)))⟩ := by
  obtain ⟨d0, hd0, hex0⟩ := hpresent
  have hloop := mergeLoop_supported ex folder ft hft (merge_dates s e)
  have hne : (merge_dates s e).filter (fun d => ex (probeName folder ft d)) ≠ [] :=
    List.ne_nil_of_mem (List.mem_filter.mpr ⟨hd0, hex0⟩)
  have hE : ((merge_dates s e).filter
      (fun d => ex (probeName folder ft d))).isEmpty = false := by
    rw [List.isEmpty_eq_false]
    exact hne
  unfold merge_files
  rw [hloop]
  dsimp only
  rw [hE]
  rfl

/-- Claim C3 (confirmed): for a merge over a date range in which some
per-day files are absent (and at least one is present, so that an output
exists), `merge_files` emits a warning for each missing file and omits that
date from the output's time coordinate without failing; the time
coordinate is exactly the present dates, in range order. -/
theorem merge_files_skips_missing (ex : String → Bool) (s e : Date)
    (folder out ft units var : String) (hft : ft = "nc" ∨ ft = "tif")
    (hpresent : ∃ d ∈ merge_dates s e, ex (probeName folder ft d) = true) :
    (merge_files ex s e folder out ft units var).result =
        MergeResult.written
          ((merge_dates s e).filter (fun d => ex (probeName folder ft d))) ∧
      ∀ d ∈ merge_dates s e, ex (probeName folder ft d) = false →
        ("File not found: " ++ probeName folder ft d) ∈
            (merge_files ex s e folder out ft units var).messages ∧
          d ∉ (merge_dates s e).filter (fun d => ex (probeName folder ft d)) := by
  rw [merge_files_out_filter ex s e folder out ft units var hft hpresent]
  refine ⟨rfl, ?_⟩
  intro d hd hmiss
  constructor
  · exact List.mem_map.mpr ⟨d, List.mem_filter.mpr ⟨hd, by simp [hmiss]⟩, rfl⟩
  · intro hmem
    have := (List.mem_filter.mp hmem).2
    rw [hmiss] at this
    exact Bool.false_ne_true this

/-- Witness for C3: the 3-day range 2024-04-08 .. 2024-04-11 (exclusive)
with only day 2's file (2024-04-09) absent produces a time dimension of
length 2 holding exactly days 1 and 3 in chronological order, plus a
missing-file warning for day 2. -/
theorem merge_files_skips_missing_witness :
    (("nc" = "nc" ∨ "nc" = "tif") ∧
        (∃ d ∈ merge_dates ⟨2024, 4, 8⟩ ⟨2024, 4, 11⟩,
          (fun f => f == "p2024-04-08.nc" || f == "p2024-04-10.nc")
            (probeName "p" "nc" d) = true)) ∧
      (merge_files (fun f => f == "p2024-04-08.nc" || f == "p2024-04-10.nc")
          ⟨2024, 4, 8⟩ ⟨2024, 4, 11⟩ "p" "out.nc" "nc" "mm" "pr").result =
        MergeResult.written [⟨2024, 4, 8⟩, ⟨2024, 4, 10⟩] ∧
      ("File not found: p2024-04-09.nc" ∈
        (merge_files (fun f => f == "p2024-04-08.nc" || f == "p2024-04-10.nc")
          ⟨2024, 4, 8⟩ ⟨2024, 4, 11⟩ "p" "out.nc" "nc" "mm" "pr").messages) := by
  have h := merge_files_skips_missing
    (fun f => f == "p2024-04-08.nc" || f == "p2024-04-10.nc")
    ⟨2024, 4, 8⟩ ⟨2024, 4, 11⟩ "p" "out.nc" "nc" "mm" "pr"
    (Or.inl rfl) (by decide)
  refine ⟨⟨Or.inl rfl, by decide⟩, ?_, ?_⟩
  · exact h.1.trans (by decide)
  · exact (h.2 ⟨2024, 4, 9⟩ (by decide) (by decide)).1

/-- Claim C4 (confirmed): merging N single-day files that are all present in
the (non-empty) range and reading back the merged file's time dimension
yields exactly the N constructed dates, sorted ascending (strictly
increasing ordinals), with no duplicates. -/
theorem merge_files_roundtrip (ex : String → Bool) (s e : Date)
    (folder out ft units var : String) (hft : ft = "nc" ∨ ft = "tif")
    (hs : validDate s) (hne : merge_dates s e ≠ [])
    (hall : ∀ d ∈ merge_dates s e, ex (probeName folder ft d) = true) :
    (merge_files ex s e folder out ft units var).result =
        MergeResult.written (merge_dates s e) ∧
      List.Pairwise (fun a b => toOrdinal a < toOrdinal b) (merge_dates s e) ∧
      (merge_dates s e).Nodup := by
  have hfilter : (merge_dates s e).filter (fun d => ex (probeName folder ft d)) =
      merge_dates s e := List.filter_eq_self.mpr hall
  have hsorted : List.Pairwise (fun a b => toOrdinal a < toOrdinal b)
      (merge_dates s e) := date_range_sorted s (prevDay e) hs
  refine ⟨?_, hsorted, ?_⟩
  · obtain ⟨d0, hd0⟩ := List.exists_mem_of_ne_nil _ hne
    have h := merge_files_out_filter ex s e folder out ft units var hft
      ⟨d0, hd0, hall d0 hd0⟩
    rw [h, hfilter]
  · exact hsorted.imp (fun hlt heq => absurd (heq ▸ hlt) (lt_irrefl _))

/-- Witness for C4: a three-day range with all three files present merges
to exactly those three dates in ascending order. -/
theorem merge_files_roundtrip_witness :
    (("nc" = "nc" ∨ "nc" = "tif") ∧ validDate ⟨2024, 2, 28⟩ ∧
        merge_dates ⟨2024, 2, 28⟩ ⟨2024, 3, 2⟩ ≠ [] ∧
        ∀ d ∈ merge_dates ⟨2024, 2, 28⟩ ⟨2024, 3, 2⟩,
          (fun f => f == "p2024-02-28.nc" || f == "p2024-02-29.nc" ||
            f == "p2024-03-01.nc") (probeName "p" "nc" d) = true) ∧
      (merge_files
          (fun f => f == "p2024-02-28.nc" || f == "p2024-02-29.nc" ||
            f == "p2024-03-01.nc")
          ⟨2024, 2, 28⟩ ⟨2024, 3, 2⟩ "p" "out.nc" "nc" "mm" "pr").result =
        MergeResult.written [⟨2024, 2, 28⟩, ⟨2024, 2, 29⟩, ⟨2024, 3, 1⟩] := by
  have h := merge_files_roundtrip
    (fun f => f == "p2024-02-28.nc" || f == "p2024-02-29.nc" ||
      f == "p2024-03-01.nc")
    ⟨2024, 2, 28⟩ ⟨2024, 3, 2⟩ "p" "out.nc" "nc" "mm" "pr"
    (Or.inl rfl) (by decide) (by decide) (by decide)
  exact ⟨⟨Or.inl rfl, by decide, by decide, by decide⟩, h.1.trans (by decide)⟩

/-- Claim C2, counterexample: with an unsupported file type and no matching
per-day file on disk (here an empty one-day range probe), `merge_files`
does not return early; it reaches `xr.concat(datasets)` with an empty list,
which raises — contradicting that the failure is signalled by the early
return and never by a raised exception. -/
theorem merge_files_unsupported_raises_cex :
    ("csv" ≠ "nc" ∧ "csv" ≠ "tif") ∧
      (merge_files (fun _ => false) ⟨2024, 4, 8⟩ ⟨2024, 4, 9⟩
          "d/" "out.nc" "csv" "mm" "pr").result = MergeResult.raised ∧
      (merge_files (fun _ => false) ⟨2024, 4, 8⟩ ⟨2024, 4, 9⟩
          "d/" "out.nc" "csv" "mm" "pr").result ≠ MergeResult.earlyReturn := by
  exact ⟨⟨by decide, by decide⟩, by decide, by decide⟩

/-- Claim C2 (corrected): for a file-type tag other than "nc" and "tif",
`merge_files` never writes an output; if some probed per-day file exists it
prints the unsupported-type warning and aborts via the early return, but if
no probed file exists the loop never reaches the type check and the call
instead fails with the raised error from concatenating zero datasets. -/
theorem merge_files_unsupported_type (ex : String → Bool) (s e : Date)
    (folder out ft units var : String) (hnc : ft ≠ "nc") (htif : ft ≠ "tif") :
    (∀ ts, (merge_files ex s e folder out ft units var).result ≠
        MergeResult.written ts) ∧
      ((merge_dates s e).any (fun d => ex (probeName folder ft d)) = true →
        (merge_files ex s e folder out ft units var).result =
            MergeResult.earlyReturn ∧
          ("Unsupported file type: " ++ ft) ∈
            (merge_files ex s e folder out ft units var).messages) ∧
      ((merge_dates s e).any (fun d => ex (probeName folder ft d)) = false →
        (merge_files ex s e folder out ft units var).result =
          MergeResult.raised) := by
  obtain ⟨hA, hB⟩ := mergeLoop_unsupported ex folder ft hnc htif (merge_dates s e)
  by_cases hany : (merge_dates s e).any (fun d => ex (probeName folder ft d)) = true
  · obtain ⟨ws, hws⟩ := hA hany
    have hout : merge_files ex s e folder out ft units var =
        ⟨ws ++ ["Unsupported file type: " ++ ft], MergeResult.earlyReturn⟩ := by
      unfold merge_files
      rw [hws]
    rw [hout]
    refine ⟨fun ts h => by simp at h, fun _ => ⟨rfl, ?_⟩, fun hf => ?_⟩
    · simp
    · rw [hany] at hf
      exact absurd hf (by simp)
  · have hany' : (merge_dates s e).any (fun d => ex (probeName folder ft d)) = false := by
      simpa using hany
    have hout : merge_files ex s e folder out ft units var =
        ⟨(merge_dates s e).map
            (fun d => "File not found: " ++ probeName folder ft d),
          MergeResult.raised⟩ := by
      unfold merge_files
      rw [hB hany']
      rfl
    rw [hout]
    exact ⟨fun ts h => by simp at h, fun h => absurd h hany, fun _ => rfl⟩

/-- Witness for C2 (amended): with file type "csv" and a matching file on
disk the call ends in the early return with the unsupported-type warning;
the no-file case of the same theorem is exercised by the counterexample. -/
theorem merge_files_unsupported_type_witness :
    ("csv" ≠ "nc" ∧ "csv" ≠ "tif" ∧
        (merge_dates ⟨2024, 4, 8⟩ ⟨2024, 4, 9⟩).any
          (fun d => (fun f => f == "d/2024-04-08.csv") (probeName "d/" "csv" d)) = true) ∧
      (merge_files (fun f => f == "d/2024-04-08.csv") ⟨2024, 4, 8⟩ ⟨2024, 4, 9⟩
          "d/" "out.nc" "csv" "mm" "pr").result = MergeResult.earlyReturn ∧
      ("Unsupported file type: csv") ∈
        (merge_files (fun f => f == "d/2024-04-08.csv") ⟨2024, 4, 8⟩ ⟨2024, 4, 9⟩
          "d/" "out.nc" "csv" "mm" "pr").messages := by
  have h := (merge_files_unsupported_type (fun f => f == "d/2024-04-08.csv")
    ⟨2024, 4, 8⟩ ⟨2024, 4, 9⟩ "d/" "out.nc" "csv" "mm" "pr"
    (by decide) (by decide)).2.1 (by decide)
  exact ⟨⟨by decide, by decide, by decide⟩, h.1, h.2⟩

/-! ### `Tools.country_crop`

`file_to_be_cropped.where(ds_mask['mask'] == 1, drop=True)`: with a
two-dimensional mask, xarray keeps a latitude index iff some cell of its
row satisfies the condition, and a longitude index iff some cell of its
column does; a retained cell whose own condition is false becomes NaN
(`none`).  The cropped grid is summarised by its retained coordinate lists
and its value function. -/

/-- The dataset written by `country_crop`: the retained latitude and
longitude indices and the masked values (NaN is `none`). -/
structure CroppedDS where
  lats : List Nat
  lons : List Nat
  value : Nat → Nat → Option ℚ

/-- Model of `Tools.country_crop` on an `nlat × nlon` grid: the mask
variable is `mask`, the data variable is `v`. -/
def country_crop (nlat nlon : Nat) (mask : Nat → Nat → Nat) (v : Nat → Nat → ℚ) :
    CroppedDS where
  lats := (List.range nlat).filter
    (fun i => (List.range nlon).any (fun j => mask i j == 1))
  lons := (List.range nlon).filter
    (fun j => (List.range nlat).any (fun i => mask i j == 1))
  value := fun i j => if mask i j == 1 then some (v i j) else none

/-- A coordinate pair is contained in the output dataset iff both its
latitude and its longitude survived the `drop=True` trimming. -/
def CroppedDS.containsCoord (ds : CroppedDS) (i j : Nat) : Prop :=
  i ∈ ds.lats ∧ j ∈ ds.lons

instance (ds : CroppedDS) (i j : Nat) : Decidable (ds.containsCoord i j) := by
  unfold CroppedDS.containsCoord; infer_instance

/-- A mask grid with exactly one cell set to 0 (at `(i0, j0)`) and every
other cell set to 1. -/
def exactlyOneZero (nlat nlon : Nat) (mask : Nat → Nat → Nat) (i0 j0 : Nat) : Prop :=
  i0 < nlat ∧ j0 < nlon ∧ mask i0 j0 = 0 ∧
    ∀ i, i < nlat → ∀ j, j < nlon → (i ≠ i0 ∨ j ≠ j0) → mask i j = 1

instance (nlat nlon : Nat) (mask : Nat → Nat → Nat) (i0 j0 : Nat) :
    Decidable (exactlyOneZero nlat nlon mask i0 j0) := by
  unfold exactlyOneZero; infer_instance

theorem country_crop_mem_lats (nlat nlon : Nat) (mask : Nat → Nat → Nat)
    (v : Nat → Nat → ℚ) (i : Nat) :
    i ∈ (country_crop nlat nlon mask v).lats ↔
      i < nlat ∧ ∃ j, j < nlon ∧ mask i j = 1 := by
  simp [country_crop, List.mem_filter, List.mem_range, List.any_eq_true]

theorem country_crop_mem_lons (nlat nlon : Nat) (mask : Nat → Nat → Nat)
    (v : Nat → Nat → ℚ) (j : Nat) :
    j ∈ (country_crop nlat nlon mask v).lons ↔
      j < nlon ∧ ∃ i, i < nlat ∧ mask i j = 1 := by
  simp [country_crop, List.mem_filter, List.mem_range, List.any_eq_true]

/-- Claim C1, counterexample: on a 2 × 2 grid whose mask has its only 0 at
`(0, 0)`, the output of `country_crop` still contains the coordinate
`(0, 0)` (row 0 and column 0 each keep another cell where the mask is 1,
so neither index is dropped), contradicting that the output must not
contain that cell's coordinate. -/
theorem country_crop_retains_zero_cell_cex :
    exactlyOneZero 2 2 (fun i j => if i = 0 ∧ j = 0 then 0 else 1) 0 0 ∧
      (country_crop 2 2 (fun i j => if i = 0 ∧ j = 0 then 0 else 1)
        (fun _ _ => (0 : ℚ))).containsCoord 0 0 := by
  decide

/-- Claim C1 (corrected): for a mask with exactly one cell set to 0, the
output contains every coordinate where the mask is 1 (with its value
preserved); the 0-cell's value is dropped to NaN, but its coordinate pair
is still contained in the output whenever the grid has at least two rows
and two columns — it disappears only in a single-row or single-column
grid. -/
theorem country_crop_one_zero (nlat nlon : Nat) (mask : Nat → Nat → Nat)
    (v : Nat → Nat → ℚ) (i0 j0 : Nat) (h : exactlyOneZero nlat nlon mask i0 j0) :
    (∀ i, i < nlat → ∀ j, j < nlon → mask i j = 1 →
        (country_crop nlat nlon mask v).containsCoord i j ∧
          (country_crop nlat nlon mask v).value i j = some (v i j)) ∧
      ((country_crop nlat nlon mask v).containsCoord i0 j0 ↔ 2 ≤ nlat ∧ 2 ≤ nlon) ∧
      (country_crop nlat nlon mask v).value i0 j0 = none := by
  obtain ⟨hi0, hj0, hz, hone⟩ := h
  refine ⟨?_, ⟨?_, ?_⟩, ?_⟩
  · intro i hi j hj hm
    refine ⟨⟨?_, ?_⟩, ?_⟩
    · exact (country_crop_mem_lats nlat nlon mask v i).mpr ⟨hi, j, hj, hm⟩
    · exact (country_crop_mem_lons nlat nlon mask v j).mpr ⟨hj, i, hi, hm⟩
    · simp [country_crop, hm]
  · rintro ⟨hla, hlo⟩
    obtain ⟨_, j, hj, hmj⟩ := (country_crop_mem_lats nlat nlon mask v i0).mp hla
    obtain ⟨_, i, hi, hmi⟩ := (country_crop_mem_lons nlat nlon mask v j0).mp hlo
    have hjne : j ≠ j0 := fun hc => by rw [hc, hz] at hmj; exact absurd hmj one_ne_zero.symm
    have hine : i ≠ i0 := fun hc => by rw [hc, hz] at hmi; exact absurd hmi one_ne_zero.symm
    omega
  · rintro ⟨h2a, h2b⟩
    constructor
    · refine (country_crop_mem_lats nlat nlon mask v i0).mpr ⟨hi0, ?_⟩
      refine ⟨if j0 = 0 then 1 else 0, by split <;> omega, ?_⟩
      exact hone i0 hi0 _ (by split <;> omega) (Or.inr (by split <;> omega))
    · refine (country_crop_mem_lons nlat nlon mask v j0).mpr ⟨hj0, ?_⟩
      refine ⟨if i0 = 0 then 1 else 0, by split <;> omega, ?_⟩
      exact hone _ (by split <;> omega) j0 hj0 (Or.inl (by split <;> omega))
  · simp [country_crop, hz]

/-- Witness for C1 (amended) at the 2 × 2 single-zero mask: every mask-1
coordinate is contained and the zero cell's value is NaN while its
coordinate is retained. -/
theorem country_crop_one_zero_witness :
    exactlyOneZero 2 2 (fun i j => if i = 0 ∧ j = 0 then 0 else 1) 0 0 ∧
      ((country_crop 2 2 (fun i j => if i = 0 ∧ j = 0 then 0 else 1)
          (fun _ _ => (3 : ℚ))).containsCoord 0 0 ↔ 2 ≤ 2 ∧ 2 ≤ 2) ∧
      (country_crop 2 2 (fun i j => if i = 0 ∧ j = 0 then 0 else 1)
        (fun _ _ => (3 : ℚ))).value 0 0 = none := by
  have h := country_crop_one_zero 2 2 (fun i j => if i = 0 ∧ j = 0 then 0 else 1)
    (fun _ _ => (3 : ℚ)) 0 0 (by decide)
  exact ⟨by decide, h.2.1, h.2.2⟩

/-! ### `Tools.regions_crop`

A vector-layer record is summarised by a cell-membership predicate for its
polygon (the cell test performed by `ds.rio.clip`) and its attribute
columns; the grid is its list of data variables (the method only ever uses
the first one). -/

/-- One record of the vector layer read by `gpd.read_file`. -/
structure RegionRec where
  inside : Nat → Nat → Bool
  attrs : String → String

/-- The grid dataset opened by `regions_crop`. -/
structure RegionGrid where
  dataVars : List (String × (Nat → Nat → Option ℚ))

/-- Model of `Tools.regions_crop`: `none` is the underlying library error
(empty variable list makes `list(ds.data_vars)[0]` raise, an empty record
list makes `xr.concat([])` raise).  On success it returns the per-region
slices stacked along the new region dimension, the region coordinate
labels, and the returned output path. -/
def regions_crop (ds : RegionGrid) (regions : List RegionRec)
    (output_file name_column : String) :
    Option (List (Nat → Nat → Option ℚ) × List String × String) :=
  match ds.dataVars with
  | [] => none
  | (_, v) :: _ =>
      if regions.isEmpty then none
      else
        some
          (regions.map (fun r => fun i j =>
            if r.inside i j && (v i j).isSome then v i j else none),
           regions.map (fun r => r.attrs name_column),
           output_file)

/-- Claim C5 (confirmed): for a vector layer with at least one record and a
grid with at least one data variable, the output's region dimension length
equals the number of records, its region labels are the name-column values
in file order, every cell outside every polygon is NaN in every per-region
slice, and the function returns the output path. -/
theorem regions_crop_spec (ds : RegionGrid) (regions : List RegionRec)
    (output_file name_column : String)
    (hvars : ds.dataVars ≠ []) (hregs : regions ≠ []) :
    ∃ slices : List (Nat → Nat → Option ℚ),
      regions_crop ds regions output_file name_column =
          some (slices, regions.map (fun r => r.attrs name_column), output_file) ∧
        slices.length = regions.length ∧
        ∀ i j, (∀ r ∈ regions, r.inside i j = false) →
          ∀ s ∈ slices, s i j = none := by
  match hds : ds.dataVars with
  | [] => exact absurd hds hvars
  | (name, v) :: rest =>
      refine ⟨regions.map (fun r => fun i j =>
        if r.inside i j && (v i j).isSome then v i j else none), ?_, ?_, ?_⟩
      · unfold regions_crop
        rw [hds]
        dsimp only
        rw [if_neg (by simpa [List.isEmpty_iff] using hregs)]
      · exact List.length_map _ _
      · intro i j hout s hs
        obtain ⟨r, hr, rfl⟩ := List.mem_map.mp hs
        simp [hout r hr]

/-- Witness for C5: one rectangular region over a one-variable grid. -/
theorem regions_crop_spec_witness :
    ((RegionGrid.mk [("pr", fun _ _ => some (1 : ℚ))]).dataVars ≠ [] ∧
        ([⟨fun i _ => i == 0, fun _ => "Norte"⟩] : List RegionRec) ≠ []) ∧
      ∃ slices : List (Nat → Nat → Option ℚ),
        regions_crop (RegionGrid.mk [("pr", fun _ _ => some (1 : ℚ))])
            [⟨fun i _ => i == 0, fun _ => "Norte"⟩] "out.nc" "Nombre" =
            some (slices, ["Norte"], "out.nc") ∧
          slices.length = 1 ∧
          ∀ i j, (∀ r ∈ ([⟨fun i _ => i == 0, fun _ => "Norte"⟩] : List RegionRec),
              r.inside i j = false) →
            ∀ s ∈ slices, s i j = none := by
  refine ⟨⟨List.cons_ne_nil _ _, List.cons_ne_nil _ _⟩, ?_⟩
  exact regions_crop_spec (RegionGrid.mk [("pr", fun _ _ => some (1 : ℚ))])
    [⟨fun i _ => i == 0, fun _ => "Norte"⟩] "out.nc" "Nombre"
    (List.cons_ne_nil _ _) (List.cons_ne_nil _ _)

/-! ### `Tools.plot_nc_file` -/

/-- The dataset opened by `plot_nc_file`, abstracted to its variable
names (the only field the validation touches). -/
structure NcDataset where
  varNames : List String

/-- Outcome of a `plot_nc_file` call: the image files written by
`plt.savefig` and the raised `ValueError`, if any. -/
structure PlotResult where
  written : List String
  error : Option String

/-- Model of `Tools.plot_nc_file`: the variable check precedes every
plotting step, and on success `plt.savefig(f"{save_path}{variable_name}")`
writes exactly one file. -/
def plot_nc_file (ds : NcDataset) (variable_name save_path : String) : PlotResult :=
  if variable_name ∉ ds.varNames then
    ⟨[], some ("La variable '" ++ variable_name ++ "' no se encuentra en el archivo.")⟩
  else
    ⟨[save_path ++ variable_name], none⟩

/-- Claim C7 (confirmed): requesting a variable absent from the dataset
raises the descriptive validation error before any image file is written:
the written-file list is empty and the error carries the message naming
the variable. -/
theorem plot_nc_file_missing_variable (ds : NcDataset) (variable_name save_path : String)
    (h : variable_name ∉ ds.varNames) :
    (plot_nc_file ds variable_name save_path).written = [] ∧
      (plot_nc_file ds variable_name save_path).error =
        some ("La variable '" ++ variable_name ++ "' no se encuentra en el archivo.") := by
  unfold plot_nc_file
  rw [if_pos h]
  exact ⟨rfl, rfl⟩

/-- Witness for C7: requesting "ET0" from a dataset holding only
"precipitationCal" writes nothing and errors. -/
theorem plot_nc_file_missing_variable_witness :
    ("ET0" ∉ (NcDataset.mk ["precipitationCal"]).varNames) ∧
      (plot_nc_file (NcDataset.mk ["precipitationCal"]) "ET0" "figs/").written = [] ∧
      (plot_nc_file (NcDataset.mk ["precipitationCal"]) "ET0" "figs/").error =
        some "La variable 'ET0' no se encuentra en el archivo." := by
  have h := plot_nc_file_missing_variable (NcDataset.mk ["precipitationCal"])
    "ET0" "figs/" (by decide)
  exact ⟨by decide, h.1, h.2.trans (by decide)⟩

/-! ### `Tools.calculate_daily_mean_per_municipality` -/

/-- One record of the municipalities vector layer: attribute columns and
the centroid of its polygon. -/
structure MuniRec where
  attrs : String → String
  centroidX : ℚ
  centroidY : ℚ

/-- The grid dataset: variable names, the two coordinate arrays, and for
each (longitude index, latitude index) the time series of the selected
variable. -/
structure MuniGrid where
  varNames : List String
  lons : List ℚ
  lats : List ℚ
  series : Nat → Nat → List ℚ

/-- Index scan keeping the first minimiser of the distance to `x`. -/
def nearestIdxAux (x : ℚ) : List ℚ → Nat → Nat × ℚ → Nat
  | [], _, best => best.1
  | c :: cs, i, best =>
      if |c - x| < best.2 then nearestIdxAux x cs (i + 1) (i, |c - x|)
      else nearestIdxAux x cs (i + 1) best

/-- The index selected by `.sel({dim: x}, method='nearest')` on a sorted
coordinate array (pandas resolves distance ties toward the earlier
index). -/
def nearestIdx (coords : List ℚ) (x : ℚ) : Nat :=
  match coords with
  | [] => 0
  | c :: cs => nearestIdxAux x cs 1 (0, |c - x|)

/-- Arithmetic mean: `DataArray.mean(dim='time')` on a NaN-free series. -/
def meanQ (xs : List ℚ) : ℚ := xs.sum / xs.length

/-- Model of `Tools.calculate_daily_mean_per_municipality`: validation
error if the variable is absent, otherwise one result row per record in
file order; the second component is the list of files written (the
`df.to_csv` line is commented out, so it is always empty). -/
def calculate_daily_mean_per_municipality (municipalities : List MuniRec)
    (dataset : MuniGrid)
    (variable_name region_column municipality_column units : String) :
    Except String (List (String × String × String × ℚ) × List String) :=
  if variable_name ∉ dataset.varNames then
    Except.error
      ("La variable '" ++ variable_name ++ "' no se encuentra en el archivo NetCDF.")
  else
    Except.ok
      (municipalities.map (fun m =>
        (m.attrs region_column, m.attrs municipality_column,
         variable_name ++ "_promedio (" ++ units ++ ")",
         meanQ (dataset.series (nearestIdx dataset.lons m.centroidX)
           (nearestIdx dataset.lats m.centroidY)))),
       [])

/-- Claim C8 (confirmed): when the grid contains the requested variable,
the call returns one row per vector-layer record in file order — region
label, municipality label, and the time mean of the variable at the grid
cell nearest to the record's centroid (nearest-neighbour lookup) — and
writes no file (the CSV export is disabled). -/
theorem calculate_daily_mean_spec (municipalities : List MuniRec)
    (dataset : MuniGrid) (variable_name region_column municipality_column units : String)
    (h : variable_name ∈ dataset.varNames) :
    ∃ rows,
      calculate_daily_mean_per_municipality municipalities dataset variable_name
          region_column municipality_column units =
          Except.ok (rows, ([] : List String)) ∧
        rows.length = municipalities.length ∧
        rows = municipalities.map (fun m =>
          (m.attrs region_column, m.attrs municipality_column,
           variable_name ++ "_promedio (" ++ units ++ ")",
           meanQ (dataset.series (nearestIdx dataset.lons m.centroidX)
             (nearestIdx dataset.lats m.centroidY)))) := by
  refine ⟨_, ?_, List.length_map _ _, rfl⟩
  unfold calculate_daily_mean_per_municipality
  rw [if_neg (fun hn => hn h)]

/-- Witness for C8: a single municipality whose centroid is nearest to the
grid cell holding the series [2, 4], giving mean 3 and no written file. -/
theorem calculate_daily_mean_spec_witness :
    ("pr" ∈ (MuniGrid.mk ["pr"] [0, 10] [0, 10]
        (fun i j => if i == 0 && j == 1 then [2, 4] else [9])).varNames) ∧
      calculate_daily_mean_per_municipality
          [⟨fun c => if c == "NAME_1" then "Reg" else "Mun", 1, 9⟩]
          (MuniGrid.mk ["pr"] [0, 10] [0, 10]
            (fun i j => if i == 0 && j == 1 then [2, 4] else [9]))
          "pr" "NAME_1" "NAME_2" "mm" =
        Except.ok ([("Reg", "Mun", "pr_promedio (mm)", (3 : ℚ))], []) := by
  have h := calculate_daily_mean_spec
    [⟨fun c => if c == "NAME_1" then "Reg" else "Mun", 1, 9⟩]
    (MuniGrid.mk ["pr"] [0, 10] [0, 10]
      (fun i j => if i == 0 && j == 1 then [2, 4] else [9]))
    "pr" "NAME_1" "NAME_2" "mm" (by decide)
  obtain ⟨rows, h1, _, h3⟩ := h
  rw [h3] at h1
  refine ⟨by decide, h1.trans (congrArg Except.ok ?_)⟩
  have hlon : nearestIdx [0, 10] (1 : ℚ) = 0 := by
    norm_num [nearestIdx, nearestIdxAux]
  have hlat : nearestIdx [0, 10] (9 : ℚ) = 1 := by
    norm_num [nearestIdx, nearestIdxAux]
  simp only [List.map, hlon, hlat]
  norm_num [meanQ]
  exact ⟨by decide, by decide⟩

/-! ### `Tools.translate_julian_dates`

The 7-digit branch rebuilds the string `f'{año}{dia_juliano:03}'` (the
year loses any leading zeros through `int(...)`) and hands it to
`datetime.strptime(_, '%Y%j')`.  CPython `_strptime` matches `%Y` with the
regex `\d\d\d\d` (exactly four digits), `%j` with the ordered alternation
`36[0-6]|3[0-5]\d|[1-2]\d\d|0[1-9]\d|00[1-9]|[1-9]\d|0[1-9]|[1-9]`, raises
`ValueError` when the whole string is not consumed, and resolves an
explicitly supplied julian day through
`date.fromordinal((julian - 1) + date(year, 1, 1).toordinal())`, which
rolls an out-of-range day over into the next year instead of raising. -/

/-- The single-character alternatives of the `%j` regex (`[1-9]`). -/
def jMatch1 (cs : List Char) : Option (List Char) :=
  match cs with
  | c :: _ => if '1' ≤ c ∧ c ≤ '9' then some [c] else none
  | [] => none

/-- The two-character alternatives of the `%j` regex, in regex order
(`[1-9]\d`, then `0[1-9]`), falling through to the one-character ones. -/
def jMatch2 (cs : List Char) : Option (List Char) :=
  match cs with
  | a :: b :: _ =>
      if ('1' ≤ a ∧ a ≤ '9') ∧ isDigitChar b then some [a, b]
      else if a = '0' ∧ ('1' ≤ b ∧ b ≤ '9') then some [a, b]
      else jMatch1 cs
  | _ => jMatch1 cs

/-- The `%j` alternation: the prefix matched by the first alternative that
fits, in regex order (three-character alternatives first). -/
def jMatch (cs : List Char) : Option (List Char) :=
  match cs with
  | a :: b :: c :: _ =>
      if a = '3' ∧ b = '6' ∧ ('0' ≤ c ∧ c ≤ '6') then some [a, b, c]
      else if a = '3' ∧ ('0' ≤ b ∧ b ≤ '5') ∧ isDigitChar c then some [a, b, c]
      else if ('1' ≤ a ∧ a ≤ '2') ∧ isDigitChar b ∧ isDigitChar c then some [a, b, c]
      else if a = '0' ∧ ('1' ≤ b ∧ b ≤ '9') ∧ isDigitChar c then some [a, b, c]
      else if a = '0' ∧ b = '0' ∧ ('1' ≤ c ∧ c ≤ '9') then some [a, b, c]
      else jMatch2 cs
  | _ => jMatch2 cs

/-- `%j` inside the full `'%Y%j'` pattern: the matched day value, provided
the match consumes everything that follows the year (otherwise
"unconverted data remains" and strptime raises). -/
def jFullMatch (rest : List Char) : Option Nat :=
  match jMatch rest with
  | some m => if m.length = rest.length then some (natOfDigits m) else none
  | none => none

/-- Walk the months consuming the day-of-year. -/
def doyToMonthDayGo (leap : Bool) : Nat → Nat → Nat → Nat × Nat
  | 0, m, doy => (m, doy)
  | fuel + 1, m, doy =>
      if doy ≤ monthLength leap m then (m, doy)
      else doyToMonthDayGo leap fuel (m + 1) (doy - monthLength leap m)

/-- The (month, day) of day-of-year `doy` in year `y` (for
`1 ≤ doy ≤ daysInYear y`). -/
def doyToMonthDay (y doy : Nat) : Nat × Nat :=
  doyToMonthDayGo (isLeap y) 12 1 doy

/-- The julian branch of `_strptime`:
`date.fromordinal((julian - 1) + date(year, 1, 1).toordinal())` for
`1 ≤ julian ≤ 366`.  A day beyond the year's length rolls over to
January 1 of the next year; `fromordinal` raises (`none`) only if that
leaves the supported year range. -/
def julianResolve (year julian : Nat) : Option Date :=
  if julian ≤ daysInYear year then
    some ⟨year, (doyToMonthDay year julian).1, (doyToMonthDay year julian).2⟩
  else if year + 1 ≤ 9999 then some ⟨year + 1, 1, 1⟩
  else none

/-- Model of `datetime.strptime(s, '%Y%j')` on a digit string `s`:
`%Y` takes exactly the first four characters (all digits), `%j` must match
and consume the remainder, `date(year, 1, 1)` rejects year 0, and the
julian day is resolved with rollover. -/
def strptimeYj (cs : List Char) : Option Date :=
  if (cs.take 4).length = 4 ∧ (cs.take 4).all isDigitChar then
    match jFullMatch (cs.drop 4) with
    | some julian =>
        if natOfDigits (cs.take 4) = 0 then none
        else julianResolve (natOfDigits (cs.take 4)) julian
    | none => none
  else none

/-- Index of the last '.' of a file name, if any. -/
def lastDotIdx (cs : List Char) : Option Nat :=
  ((List.range cs.length).filter (fun i => cs.getD i ' ' == '.')).getLast?

/-- Model of `os.path.splitext` on a bare file name: split at the last
dot, unless every character before it is itself a dot (leading dots never
start an extension). -/
def splitext (p : String) : String × String :=
  match lastDotIdx p.data with
  | none => (p, "")
  | some k =>
      if (p.data.take k).any (fun c => c != '.') then
        (⟨p.data.take k⟩, ⟨p.data.drop k⟩)
      else (p, "")

/-- `strftime('%Y-%m-%d')` (exact for the years ≥ 1000 that reach it). -/
def fmtISO (d : Date) : String :=
  (⟨natToDec d.year⟩ : String) ++ "-" ++ zfill2 d.month ++ "-" ++ zfill2 d.day

/-- The 7-digit test of the renamer:
`len(nombre) == 7 and nombre.isdigit()`. -/
def isJulianName (nombre : String) : Bool :=
  nombre.length == 7 && nombre.data.all isDigitChar

/-- The body of the 7-digit branch: build
`f'{int(nombre[:4])}{int(nombre[4:]):03}'`, parse it with `'%Y%j'`, and
format the new name; `none` is the uncaught `ValueError`. -/
def renameFor (nombre extension : String) : Option String :=
  let anio := natOfDigits (nombre.data.take 4)
  let dia_juliano := natOfDigits (nombre.data.drop 4)
  match strptimeYj (natToDec anio ++ pad3 dia_juliano) with
  | some fecha => some (fmtISO fecha ++ extension)
  | none => none

/-- Outcome of a `translate_julian_dates` run: either the returned list of
names together with the renames performed on disk (in order), or an
uncaught error that aborted the iteration with the names and renames
accumulated so far and the remaining, untouched entries. -/
inductive RenameRun where
  | ok : List String → List (String × String) → RenameRun
  | err : List String → List (String × String) → List String → RenameRun
deriving DecidableEq

/-- Model of `Tools.translate_julian_dates` on the directory listing. -/
def translate_julian_dates : List String → RenameRun
  | [] => RenameRun.ok [] []
  | archivo :: rest =>
      let p := splitext archivo
      if isJulianName p.1 then
        match renameFor p.1 p.2 with
        | some nuevo_nombre =>
            match translate_julian_dates rest with
            | RenameRun.ok ns rs =>
                RenameRun.ok (nuevo_nombre :: ns) ((archivo, nuevo_nombre) :: rs)
            | RenameRun.err ns rs rem =>
                RenameRun.err (nuevo_nombre :: ns) ((archivo, nuevo_nombre) :: rs) rem
        | none => RenameRun.err [] [] rest
      else
        match translate_julian_dates rest with
        | RenameRun.ok ns rs => RenameRun.ok (archivo :: ns) rs
        | RenameRun.err ns rs rem => RenameRun.err (archivo :: ns) rs rem

theorem daysInYear_le (y : Nat) : daysInYear y ≤ 366 := by
  unfold daysInYear; split <;> omega

set_option maxRecDepth 100000 in
theorem jFull_valid : ∀ n, n < 367 → 1 ≤ n → jFullMatch (pad3 n) = some n := by
  decide

set_option maxRecDepth 100000 in
theorem jFull_invalid :
    ∀ n, n < 1000 → (n = 0 ∨ 367 ≤ n) → jFullMatch (pad3 n) = none := by
  decide

theorem renameFor_valid (nombre extension : String)
    (hname : isJulianName nombre = true)
    (hyear : 1000 ≤ natOfDigits (nombre.data.take 4))
    (hdoy1 : 1 ≤ natOfDigits (nombre.data.drop 4))
    (hdoy2 : natOfDigits (nombre.data.drop 4) ≤
      daysInYear (natOfDigits (nombre.data.take 4))) :
    renameFor nombre extension =
      some (fmtISO ⟨natOfDigits (nombre.data.take 4),
          (doyToMonthDay (natOfDigits (nombre.data.take 4))
            (natOfDigits (nombre.data.drop 4))).1,
          (doyToMonthDay (natOfDigits (nombre.data.take 4))
            (natOfDigits (nombre.data.drop 4))).2⟩ ++ extension) := by
  have hjn := hname
  unfold isJulianName at hjn
  simp only [Bool.and_eq_true, beq_iff_eq, List.all_eq_true] at hjn
  obtain ⟨hlen7, hdigits⟩ := hjn
  have hdlen : nombre.data.length = 7 := hlen7
  set anio := natOfDigits (nombre.data.take 4) with hanio
  set dia := natOfDigits (nombre.data.drop 4) with hdia
  have htlen : (nombre.data.take 4).length = 4 := by
    rw [List.length_take]; omega
  have hdrlen : (nombre.data.drop 4).length = 3 := by
    rw [List.length_drop]; omega
  have htdig : ∀ c ∈ nombre.data.take 4, isDigitChar c = true :=
    fun c hc => hdigits c (List.take_subset _ _ hc)
  have hddig : ∀ c ∈ nombre.data.drop 4, isDigitChar c = true :=
    fun c hc => hdigits c (List.drop_subset _ _ hc)
  have hanio_lt : anio < 10000 := by
    have h := natOfDigits_lt _ htdig
    rw [htlen] at h
    norm_num at h
    exact h
  have hdia_lt : dia < 1000 := by
    have h := natOfDigits_lt _ hddig
    rw [hdrlen] at h
    norm_num at h
    exact h
  have hlen4 : (natToDec anio).length = 4 :=
    natToDec_length 3 anio (by norm_num; omega) (by norm_num; omega)
  have htake : (natToDec anio ++ pad3 dia).take 4 = natToDec anio := by
    rw [← hlen4]; exact List.take_left _ _
  have hdrop : (natToDec anio ++ pad3 dia).drop 4 = pad3 dia := by
    rw [← hlen4]; exact List.drop_left _ _
  have hdia366 : dia < 367 := by
    have := daysInYear_le anio
    omega
  have hstrp : strptimeYj (natToDec anio ++ pad3 dia) =
      some ⟨anio, (doyToMonthDay anio dia).1, (doyToMonthDay anio dia).2⟩ := by
    unfold strptimeYj
    rw [htake, hdrop]
    rw [if_pos ⟨hlen4, List.all_eq_true.mpr (natToDec_all_digits anio)⟩]
    rw [jFull_valid dia hdia366 hdoy1]
    dsimp only
    rw [natOfDigits_natToDec]
    rw [if_neg (by omega)]
    unfold julianResolve
    rw [if_pos hdoy2]
  unfold renameFor
  dsimp only
  rw [← hanio, ← hdia]
  rw [hstrp]

theorem renameFor_invalid (nombre extension : String)
    (hname : isJulianName nombre = true)
    (hyear : 1000 ≤ natOfDigits (nombre.data.take 4))
    (hbad : natOfDigits (nombre.data.drop 4) = 0 ∨
      367 ≤ natOfDigits (nombre.data.drop 4)) :
    renameFor nombre extension = none := by
  have hjn := hname
  unfold isJulianName at hjn
  simp only [Bool.and_eq_true, beq_iff_eq, List.all_eq_true] at hjn
  obtain ⟨hlen7, hdigits⟩ := hjn
  have hdlen : nombre.data.length = 7 := hlen7
  set anio := natOfDigits (nombre.data.take 4) with hanio
  set dia := natOfDigits (nombre.data.drop 4) with hdia
  have htlen : (nombre.data.take 4).length = 4 := by
    rw [List.length_take]; omega
  have hdrlen : (nombre.data.drop 4).length = 3 := by
    rw [List.length_drop]; omega
  have htdig : ∀ c ∈ nombre.data.take 4, isDigitChar c = true :=
    fun c hc => hdigits c (List.take_subset _ _ hc)
  have hddig : ∀ c ∈ nombre.data.drop 4, isDigitChar c = true :=
    fun c hc => hdigits c (List.drop_subset _ _ hc)
  have hanio_lt : anio < 10000 := by
    have h := natOfDigits_lt _ htdig
    rw [htlen] at h
    norm_num at h
    exact h
  have hdia_lt : dia < 1000 := by
    have h := natOfDigits_lt _ hddig
    rw [hdrlen] at h
    norm_num at h
    exact h
  have hlen4 : (natToDec anio).length = 4 :=
    natToDec_length 3 anio (by norm_num; omega) (by norm_num; omega)
  have htake : (natToDec anio ++ pad3 dia).take 4 = natToDec anio := by
    rw [← hlen4]; exact List.take_left _ _
  have hdrop : (natToDec anio ++ pad3 dia).drop 4 = pad3 dia := by
    rw [← hlen4]; exact List.drop_left _ _
  have hstrp : strptimeYj (natToDec anio ++ pad3 dia) = none := by
    unfold strptimeYj
    rw [htake, hdrop]
    rw [if_pos ⟨hlen4, List.all_eq_true.mpr (natToDec_all_digits anio)⟩]
    rw [jFull_invalid dia hdia_lt hbad]
  unfold renameFor
  dsimp only
  rw [← hanio, ← hdia]
  rw [hstrp]

/-- The new name the claim predicts for a directory entry (definition
follows the claim's words): if the base name is exactly 7 digits, read the
first 4 as a year and the last 3 as a day-of-year, and produce the ISO
date plus the original extension; otherwise the entry is unchanged. -/
def specRenamedName (archivo : String) : String :=
  let p := splitext archivo
  if isJulianName p.1 then
    fmtISO ⟨natOfDigits (p.1.data.take 4),
      (doyToMonthDay (natOfDigits (p.1.data.take 4))
        (natOfDigits (p.1.data.drop 4))).1,
      (doyToMonthDay (natOfDigits (p.1.data.take 4))
        (natOfDigits (p.1.data.drop 4))).2⟩ ++ p.2
  else archivo

/-- A directory entry on which the code behaves as the claim predicts: if
its base name is 7 digits, the encoded year keeps its four digits (no
leading zero) and the encoded day-of-year is valid for that year. -/
def goodEntry (archivo : String) : Prop :=
  isJulianName (splitext archivo).1 = true →
    (1000 ≤ natOfDigits ((splitext archivo).1.data.take 4) ∧
      1 ≤ natOfDigits ((splitext archivo).1.data.drop 4) ∧
      natOfDigits ((splitext archivo).1.data.drop 4) ≤
        daysInYear (natOfDigits ((splitext archivo).1.data.take 4)))

instance (archivo : String) : Decidable (goodEntry archivo) := by
  unfold goodEntry; infer_instance

/-- A 7-digit entry (with four-digit year) whose last three digits are 000
or exceed 366, so that the rebuilt string cannot be parsed by `'%Y%j'`. -/
def badDoyEntry (archivo : String) : Prop :=
  isJulianName (splitext archivo).1 = true ∧
    1000 ≤ natOfDigits ((splitext archivo).1.data.take 4) ∧
    (natOfDigits ((splitext archivo).1.data.drop 4) = 0 ∨
      367 ≤ natOfDigits ((splitext archivo).1.data.drop 4))

instance (archivo : String) : Decidable (badDoyEntry archivo) := by
  unfold badDoyEntry; infer_instance

/-- Claim C6, counterexample: the 7-digit entry "0123045.tif" (year field
"0123", day field "045") is renamed to "1230-02-14.tif": `int` drops the
leading zero and `'%Y%j'` re-splits the shortened string as year 1230 and
day 45.  The claim instead predicts the ISO date of year 123, day 45 —
February 14 of year 123, i.e. "0123-02-14.tif" (or "123-02-14.tif" as
strftime prints it) — which is not what the code produces. -/
theorem translate_julian_dates_leading_zero_cex :
    translate_julian_dates ["0123045.tif"] =
        RenameRun.ok ["1230-02-14.tif"] [("0123045.tif", "1230-02-14.tif")] ∧
      natOfDigits (("0123045" : String).data.take 4) = 123 ∧
      natOfDigits (("0123045" : String).data.drop 4) = 45 ∧
      doyToMonthDay 123 45 = (2, 14) ∧
      ("1230-02-14.tif" : String) ≠ "0123-02-14.tif" ∧
      ("1230-02-14.tif" : String) ≠ "123-02-14.tif" := by
  refine ⟨?_, by decide, by decide, by decide, by decide, by decide⟩
  decide

/-- Claim C6 (corrected): when every 7-digit entry of the listing encodes a
year of at least 1000 (no leading zero) and a day-of-year valid for that
year, `translate_julian_dates` renames each such entry to the ISO
`YYYY-MM-DD` date plus its original extension and records the new name,
while every entry not matching the 7-digit pattern is returned unchanged
and not renamed on disk. -/
theorem translate_julian_dates_renames (archivos : List String)
    (h : ∀ a ∈ archivos, goodEntry a) :
    translate_julian_dates archivos =
      RenameRun.ok (archivos.map specRenamedName)
        ((archivos.filter (fun a => isJulianName (splitext a).1)).map
          (fun a => (a, specRenamedName a))) := by
  induction archivos with
  | nil => rfl
  | cons a rest ih =>
      have hgood := h a (List.mem_cons_self a rest)
      have hrest := ih (fun b hb => h b (List.mem_cons_of_mem a hb))
      unfold translate_julian_dates
      dsimp only
      by_cases hj : isJulianName (splitext a).1 = true
      · obtain ⟨hy, hd1, hd2⟩ := hgood hj
        have hr := renameFor_valid (splitext a).1 (splitext a).2 hj hy hd1 hd2
        rw [hj, if_pos rfl, hr, hrest]
        dsimp only
        have hspec : specRenamedName a =
            fmtISO ⟨natOfDigits ((splitext a).1.data.take 4),
              (doyToMonthDay (natOfDigits ((splitext a).1.data.take 4))
                (natOfDigits ((splitext a).1.data.drop 4))).1,
              (doyToMonthDay (natOfDigits ((splitext a).1.data.take 4))
                (natOfDigits ((splitext a).1.data.drop 4))).2⟩ ++ (splitext a).2 := by
          unfold specRenamedName
          dsimp only
          rw [if_pos hj]
        rw [List.map_cons, List.filter_cons_of_pos (by simpa using hj), List.map_cons,
          hspec]
      · rw [Bool.not_eq_true] at hj
        rw [hj]
        rw [if_neg (by simp)]
        rw [hrest]
        have hspec : specRenamedName a = a := by
          unfold specRenamedName
          dsimp only
          rw [if_neg (by simp [hj])]
        rw [List.map_cons, List.filter_cons_of_neg (by simp [hj]), hspec]

/-- Witness for C6 (amended): "2024099.tif" is renamed to "2024-04-08.tif"
and recorded; "readme.txt" passes through unchanged with no rename. -/
theorem translate_julian_dates_renames_witness :
    (∀ a ∈ ["2024099.tif", "readme.txt"], goodEntry a) ∧
      translate_julian_dates ["2024099.tif", "readme.txt"] =
        RenameRun.ok ["2024-04-08.tif", "readme.txt"]
          [("2024099.tif", "2024-04-08.tif")] := by
  refine ⟨by decide, ?_⟩
  exact (translate_julian_dates_renames ["2024099.tif", "readme.txt"]
    (by decide)).trans (by decide)

/-- Claim C10, counterexample: "2023366.tif" encodes day 366 of the
365-day year 2023 — a day-of-year greater than the number of days in that
year — yet `translate_julian_dates` raises nothing: `_strptime` resolves
the julian day through `date.fromordinal`, which rolls over to the next
year, and the file is renamed to "2024-01-01.tif".  Likewise "0123367.tif"
(day 367 of year 123) is renamed, to "1233-03-08.tif", because the
leading-zero year re-splits the string. -/
theorem translate_julian_dates_rollover_cex :
    366 > daysInYear 2023 ∧
      translate_julian_dates ["2023366.tif"] =
        RenameRun.ok ["2024-01-01.tif"] [("2023366.tif", "2024-01-01.tif")] ∧
      367 > daysInYear 123 ∧
      translate_julian_dates ["0123367.tif"] =
        RenameRun.ok ["1233-03-08.tif"] [("0123367.tif", "1233-03-08.tif")] := by
  refine ⟨by decide, by decide, by decide, by decide⟩

/-- Claim C10 (corrected): for a directory listing `pre ++ bad :: post`
where the entries of `pre` are well formed and `bad` is a 7-digit entry
(with four-digit year) whose last three digits are 000 or exceed 366,
`translate_julian_dates` raises an unhandled date-parsing error and aborts
mid-iteration: the entries of `pre` processed earlier are already renamed
on disk and the entries of `post` are untouched.  (A day-of-year of 366 in
a 365-day year does not raise — see the counterexample — so the original
"greater than the number of days in that year" scope is too wide.) -/
theorem translate_julian_dates_aborts (pre : List String) (a : String)
    (post : List String) (hpre : ∀ b ∈ pre, goodEntry b) (hbad : badDoyEntry a) :
    translate_julian_dates (pre ++ a :: post) =
      RenameRun.err (pre.map specRenamedName)
        ((pre.filter (fun b => isJulianName (splitext b).1)).map
          (fun b => (b, specRenamedName b)))
        post := by
  induction pre with
  | nil =>
      obtain ⟨hj, hy, hb⟩ := hbad
      have hr := renameFor_invalid (splitext a).1 (splitext a).2 hj hy hb
      show translate_julian_dates (a :: post) = _
      unfold translate_julian_dates
      dsimp only
      rw [hj, if_pos rfl, hr]
      rfl
  | cons b pre' ih =>
      have hgood := hpre b (List.mem_cons_self b pre')
      have hrest := ih (fun x hx => hpre x (List.mem_cons_of_mem b hx))
      show translate_julian_dates (b :: (pre' ++ a :: post)) = _
      unfold translate_julian_dates
      dsimp only
      by_cases hj : isJulianName (splitext b).1 = true
      · obtain ⟨hy, hd1, hd2⟩ := hgood hj
        have hr := renameFor_valid (splitext b).1 (splitext b).2 hj hy hd1 hd2
        rw [hj, if_pos rfl, hr, hrest]
        dsimp only
        have hspec : specRenamedName b =
            fmtISO ⟨natOfDigits ((splitext b).1.data.take 4),
              (doyToMonthDay (natOfDigits ((splitext b).1.data.take 4))
                (natOfDigits ((splitext b).1.data.drop 4))).1,
              (doyToMonthDay (natOfDigits ((splitext b).1.data.take 4))
                (natOfDigits ((splitext b).1.data.drop 4))).2⟩ ++ (splitext b).2 := by
          unfold specRenamedName
          dsimp only
          rw [if_pos hj]
        rw [List.map_cons, List.filter_cons_of_pos (by simpa using hj), List.map_cons,
          hspec]
      · rw [Bool.not_eq_true] at hj
        rw [hj]
        rw [if_neg (by simp)]
        rw [hrest]
        have hspec : specRenamedName b = b := by
          unfold specRenamedName
          dsimp only
          rw [if_neg (by simp [hj])]
        rw [List.map_cons, List.filter_cons_of_neg (by simp [hj]), hspec]

/-- Witness for C10 (amended): in the listing
["2024001.tif", "2024000.tif", "2024002.tif"], the first entry is renamed,
the unparseable middle entry aborts the run, and the last entry is left
untouched — the operation is not atomic. -/
theorem translate_julian_dates_aborts_witness :
    ((∀ b ∈ ["2024001.tif"], goodEntry b) ∧ badDoyEntry "2024000.tif") ∧
      translate_julian_dates ["2024001.tif", "2024000.tif", "2024002.tif"] =
        RenameRun.err ["2024-01-01.tif"] [("2024001.tif", "2024-01-01.tif")]
          ["2024002.tif"] := by
  refine ⟨⟨by decide, by decide⟩, ?_⟩
  exact (translate_julian_dates_aborts ["2024001.tif"] "2024000.tif"
    ["2024002.tif"] (by decide) (by decide)).trans (by decide)
